import Mathlib

/-!
# Verification of the soundwave modal synthesis engine

Shallow embedding of the modal resonator engine from `src/modes.js` and
`src/audio-worklet.js` of the soundwave repository (a square-membrane
modal drum synthesizer), together with theorems settling the claims of
the specification about coefficient construction, the control-plane
commands, the per-sample processing loop and the output conditioner.
JavaScript numbers are modelled as exact real numbers.
-/

namespace Soundwave

noncomputable section

/-- One mode record as stored by the worklet processor (`initModes` in
`audio-worklet.js`): eigenmode indices, resonator coefficients, gains
and the mutable per-mode state. -/
structure Mode where
  m : ℕ
  n : ℕ
  freq : ℝ
  omega : ℝ
  R : ℝ
  Rcos : ℝ
  R2 : ℝ
  g : ℝ
  micGain : ℝ
  y1 : ℝ
  y2 : ℝ
  pendingPulse : ℝ

/-- Natural frequency of mode `(m, n)`:
`freq = f0 * sqrt (m^2 + n^2) / sqrt 2` (`createModes`, modes.js). -/
def modeFreq (f0 : ℝ) (m n : ℕ) : ℝ :=
  f0 * Real.sqrt ((m : ℝ) * m + n * n) / Real.sqrt 2

/-- Decay time of mode `(m, n)`: `decayTime = decayBase * f0 / freq`
(`createModes`, modes.js): higher modes decay faster. -/
def modeDecayTime (decayBase f0 : ℝ) (m n : ℕ) : ℝ :=
  decayBase * f0 / modeFreq f0 m n

/-- Resonator radius of mode `(m, n)`:
`R = exp (-dt / decayTime)` with `dt = 1 / sampleRate`
(`createModes`, modes.js). -/
def modeR (f0 sampleRate decayBase : ℝ) (m n : ℕ) : ℝ :=
  Real.exp (-(1 / sampleRate) / modeDecayTime decayBase f0 m n)

/-- Angular frequency of mode `(m, n)`:
`omega = 2 * pi * freq / sampleRate` (`createModes`, modes.js). -/
def modeOmega (f0 sampleRate : ℝ) (m n : ℕ) : ℝ :=
  2 * Real.pi * modeFreq f0 m n / sampleRate

/-- One entry of the list built by `createModes` (modes.js): derived
coefficients plus zeroed mutable state, input gain 1, mic gain 0. -/
def buildMode (f0 sampleRate decayBase : ℝ) (m n : ℕ) : Mode where
  m := m
  n := n
  freq := modeFreq f0 m n
  omega := modeOmega f0 sampleRate m n
  R := modeR f0 sampleRate decayBase m n
  Rcos := modeR f0 sampleRate decayBase m n * Real.cos (modeOmega f0 sampleRate m n)
  R2 := modeR f0 sampleRate decayBase m n * modeR f0 sampleRate decayBase m n
  g := 1
  micGain := 0
  y1 := 0
  y2 := 0
  pendingPulse := 0

/-- `createModes` (modes.js): the Modal Bank, one mode for every pair
`(m, n)` with `1 ≤ m ≤ mMax`, `1 ≤ n ≤ nMax`, in enumeration order. -/
def createModes (mMax nMax : ℕ) (f0 sampleRate decayBase : ℝ) : List Mode :=
  ((List.range mMax).map (fun i =>
    (List.range nMax).map (fun j => buildMode f0 sampleRate decayBase (i + 1) (j + 1)))).flatten

/-- Mutable state of `ModalDrumProcessor` (audio-worklet.js). -/
structure ProcState where
  modes : List Mode
  initialized : Bool
  masterGain : ℝ
  driveEnabled : Bool
  driveFreq : ℝ
  driveAmp : ℝ
  drivePhase : ℝ
  driveX : ℝ
  driveY : ℝ
  chordMode : Bool
  targetAmplitudes : List ℝ
  currentAmplitudes : List ℝ
  chordAttack : ℝ
  chordRelease : ℝ
  chordSustainLevel : ℝ
  chordPhases : List ℝ
  peakTracker : ℝ

/-- Field values set in the `ModalDrumProcessor` constructor
(audio-worklet.js). -/
def initialState : ProcState where
  modes := []
  initialized := false
  masterGain := 0.15
  driveEnabled := false
  driveFreq := 200
  driveAmp := 0.01
  drivePhase := 0
  driveX := 0.5
  driveY := 0.5
  chordMode := false
  targetAmplitudes := []
  currentAmplitudes := []
  chordAttack := 0.002
  chordRelease := 0.005
  chordSustainLevel := 0.02
  chordPhases := []
  peakTracker := 0

/-- `initModes` (audio-worklet.js): copies the serialized coefficients,
recomputes `omega` from `freq` and the context sample rate, zeroes the
per-mode filter state, allocates the chord arrays and sets
`initialized`.  It performs no validation of the incoming
coefficients. -/
def initModes (data : List Mode) (sampleRate : ℝ) (s : ProcState) : ProcState :=
  { s with
    modes := data.map (fun md =>
      { md with
        omega := 2 * Real.pi * md.freq / sampleRate
        y1 := 0
        y2 := 0
        pendingPulse := 0 })
    targetAmplitudes := List.replicate data.length 0
    currentAmplitudes := List.replicate data.length 0
    chordPhases := List.replicate data.length 0
    initialized := true }

/-- Per-mode strike increment of `exciteModes` (audio-worklet.js):
`gain * sin (m * pi * x) * sin (n * pi * y) * (1 / sqrt (m^2 + n^2))`. -/
def strikePulse (m n : ℕ) (x y gain : ℝ) : ℝ :=
  gain * (Real.sin ((m : ℝ) * Real.pi * x) * Real.sin ((n : ℝ) * Real.pi * y)) *
    (1 / Real.sqrt ((m : ℝ) * m + n * n))

/-- `exciteModes` (audio-worklet.js), the handler of `StrikeAt`:
adds the strike increment to the pending pulse of every mode. -/
def exciteModes (x y gain : ℝ) (s : ProcState) : ProcState :=
  { s with
    modes := s.modes.map (fun md =>
      { md with pendingPulse := md.pendingPulse + strikePulse md.m md.n x y gain }) }

/-- The `setDrive` message case (audio-worklet.js).  The JavaScript
reads `data.freq || this.driveFreq` and `data.amp || this.driveAmp`, so
a commanded value of `0` (the only falsy finite number) keeps the old
value, while `data.x ?? this.driveX` takes any supplied number. -/
def setDrive (enabled : Bool) (freq amp x y : ℝ) (s : ProcState) : ProcState :=
  { s with
    driveEnabled := enabled
    driveFreq := if freq = 0 then s.driveFreq else freq
    driveAmp := if amp = 0 then s.driveAmp else amp
    driveX := x
    driveY := y }

/-- Loop body of `setChord` (audio-worklet.js) acting on the mode list:
when `sustain` is false, every mode whose commanded amplitude is
positive receives an accent pulse of `amplitude * 0.15`; the loop index
`i` tracks the position in the bank. -/
def setChordPulses (amps : List ℝ) (sustain : Bool) : ℕ → List Mode → List Mode
  | _, [] => []
  | i, md :: rest =>
      (if sustain = false ∧ 0 < amps.getD i 0 then
        { md with pendingPulse := md.pendingPulse + amps.getD i 0 * 0.15 }
      else md) :: setChordPulses amps sustain (i + 1) rest

/-- `setChord` (audio-worklet.js): stores `amplitudes[i] || 0` into
every slot of `targetAmplitudes`, sets `chordMode` to the `sustain`
flag, and injects the accent pulses when `sustain` is false. -/
def setChord (amps : List ℝ) (sustain : Bool) (s : ProcState) : ProcState :=
  { s with
    chordMode := sustain
    targetAmplitudes := (List.range s.modes.length).map (fun i => amps.getD i 0)
    modes := setChordPulses amps sustain 0 s.modes }

/-- `clearChord` (audio-worklet.js): clears `chordMode` and zeroes every
slot of `targetAmplitudes`. -/
def clearChord (s : ProcState) : ProcState :=
  { s with
    chordMode := false
    targetAmplitudes := s.targetAmplitudes.map (fun _ => 0) }

/-- One chord-envelope smoothing step of the `process` loop
(audio-worklet.js): move `current` toward `target`, clamped, by at most
`chordAttack` upward or `chordRelease` downward. -/
def envelopeStep (chordAttack chordRelease target current : ℝ) : ℝ :=
  if current < target then min target (current + chordAttack)
  else if target < current then max target (current - chordRelease)
  else current

/-- Chord sustain excitation term for mode slot `j` in the `process`
loop (audio-worklet.js): present only when `chordMode` is set and the
smoothed amplitude exceeds `0.001`. -/
def chordExcitation (s : ProcState) (j : ℕ) : ℝ :=
  if s.chordMode = true ∧ 0.001 < s.currentAmplitudes.getD j 0 then
    s.currentAmplitudes.getD j 0 * s.chordSustainLevel *
      Real.sin (s.chordPhases.getD j 0)
  else 0

/-- `softLimit` (audio-worklet.js): pass-through below magnitude `0.5`,
hyperbolic tangent at and above it. -/
def softLimit (x : ℝ) : ℝ :=
  if |x| < 0.5 then x else Real.tanh x

/-- Final conditioning of one mixed sample in the `process` loop
(audio-worklet.js): master gain, then the soft limiter. -/
def conditionOutput (masterGain sample : ℝ) : ℝ :=
  softLimit (sample * masterGain)

/-- Resonator coefficients of one mode as used by the per-sample
update. -/
structure Coef where
  Rcos : ℝ
  R2 : ℝ
  g : ℝ
  micGain : ℝ

/-- One second-order IIR update from `processAudioSample` (modes.js) and
the `process` loop (audio-worklet.js):
`y_new = 2 * Rcos * y1 - R2 * y2 + g * x`, then the memory shift
`y2 ← y1, y1 ← y_new`, acting on the `(y1, y2)` pair. -/
def resonatorStep (c : Coef) (st : ℝ × ℝ) (x : ℝ) : ℝ × ℝ :=
  (2 * c.Rcos * st.1 - c.R2 * st.2 + c.g * x, st.1)

/-- Filter memory `(y1, y2)` of one mode after `t` processed samples,
starting from the zero state, fed by the input stream `u`. -/
def modeState (c : Coef) (u : ℕ → ℝ) : ℕ → ℝ × ℝ
  | 0 => (0, 0)
  | t + 1 => resonatorStep c (modeState c u t) (u t)

/-- Mixed bank output at sample `t`: the sum of `micGain * y_new` over
the bank, mode `j` fed by the input stream `fun k => u k j`
(`processAudioSample`, modes.js). -/
def bankOutput (cs : List Coef) (u : ℕ → ℕ → ℝ) (t : ℕ) : ℝ :=
  (cs.enum.map (fun p => p.2.micGain * (modeState p.2 (fun k => u k p.1) (t + 1)).1)).sum

/-- The `y1` filter memory after `t` samples when a single pulse `p` is
pending at the first processed sample and the input is silent
afterwards (the impulse response of one resonator). -/
def pulseResponse (Rcos R2 g p : ℝ) : ℕ → ℝ
  | 0 => 0
  | 1 => g * p
  | t + 2 => 2 * Rcos * pulseResponse Rcos R2 g p (t + 1) - R2 * pulseResponse Rcos R2 g p t

/-- The four-mode bank of Scenario B and Scenario C:
`createModes 2 2` initialized into the worklet processor. -/
def chordBank : ProcState :=
  initModes (createModes 2 2 200 48000 2) 48000 initialState

/-- A mid-sustain processor state: the four-mode bank with the chord
envelope of mode slot 0 fully ramped up and its chord oscillator at
phase `pi / 2`. -/
def sustainState : ProcState :=
  { chordBank with
    chordMode := true
    currentAmplitudes := [1, 0, 0, 0]
    chordPhases := [Real.pi / 2, 0, 0, 0] }

/-- C7: the soft limiter is the two-branch map, identity below magnitude
`0.5` and `tanh` at or above it, applied after the master gain; at the
boundary inputs of Scenario D it returns `0.49` and `tanh 0.51`. -/
theorem C7_softLimit_two_branch :
    (∀ x : ℝ, |x| < 0.5 → softLimit x = x) ∧
    (∀ x : ℝ, 0.5 ≤ |x| → softLimit x = Real.tanh x) ∧
    (∀ gain sample : ℝ, conditionOutput gain sample = softLimit (sample * gain)) ∧
    softLimit 0.49 = 0.49 ∧
    softLimit 0.51 = Real.tanh 0.51 := by
  refine ⟨fun x hx => ?_, fun x hx => ?_, fun gain sample => rfl, ?_, ?_⟩
  · simp [softLimit, hx]
  · have h : ¬ |x| < 0.5 := not_lt.mpr hx
    simp [softLimit, h]
  · have h : |(0.49 : ℝ)| < 0.5 := by
      rw [abs_of_nonneg (by norm_num : (0:ℝ) ≤ 0.49)]; norm_num
    simp [softLimit, h]
  · have h : ¬ |(0.51 : ℝ)| < 0.5 := by
      rw [abs_of_nonneg (by norm_num : (0:ℝ) ≤ 0.51)]; norm_num
    simp [softLimit, h]

/-- C7 witness: the two hypothesis-bearing branches evaluated at the
concrete inputs `0.3` and `0.7`. -/
theorem C7_softLimit_two_branch_witness :
    softLimit 0.3 = 0.3 ∧ softLimit 0.7 = Real.tanh 0.7 :=
  ⟨C7_softLimit_two_branch.1 0.3
      (by rw [abs_of_nonneg (by norm_num : (0:ℝ) ≤ 0.3)]; norm_num),
    C7_softLimit_two_branch.2.1 0.7
      (by rw [abs_of_nonneg (by norm_num : (0:ℝ) ≤ 0.7)]; norm_num)⟩

/-- C10: the conditioned output sample `softLimit (sample * masterGain)`
always has magnitude strictly below `1`: the pass-through branch only
fires below `0.5` and `tanh` is bounded by `1` in magnitude. -/
theorem C10_output_below_full_scale (sample gain : ℝ) :
    |conditionOutput gain sample| < 1 := by
  unfold conditionOutput softLimit
  split_ifs with h
  · linarith
  · rw [Real.tanh_eq_sinh_div_cosh, abs_div,
      abs_of_pos (Real.cosh_pos (sample * gain)),
      div_lt_one (Real.cosh_pos (sample * gain))]
    calc |Real.sinh (sample * gain)| = Real.sinh |sample * gain| :=
          Real.abs_sinh (sample * gain)
      _ < Real.cosh |sample * gain| := Real.sinh_lt_cosh _
      _ = Real.cosh (sample * gain) := Real.cosh_abs _

/-- C6 counterexample: with the negative attack rate `-1` the smoothing
step maps `current = 0`, `target = 1` to `-1`, strictly outside
`[min current target, max current target] = [0, 1]`, refuting the claim
quantified over every attack and release rate. -/
theorem C6_counterexample :
    envelopeStep (-1) 1 1 0 < min (0:ℝ) 1 := by
  norm_num [envelopeStep, min_def]

/-- C6 (amended): for nonnegative attack and release rates, one
smoothing step stays inside `[min current target, max current target]`,
rises by at most the attack rate and falls by at most the release rate,
never overshooting the target. -/
theorem C6_envelope_clamp (attack release target current : ℝ)
    (hA : 0 ≤ attack) (hRel : 0 ≤ release) :
    min current target ≤ envelopeStep attack release target current ∧
    envelopeStep attack release target current ≤ max current target ∧
    (current < target → envelopeStep attack release target current ≤ current + attack) ∧
    (target < current → current - release ≤ envelopeStep attack release target current) := by
  unfold envelopeStep
  split_ifs with h1 h2
  · exact ⟨le_trans (min_le_left _ _) (le_min h1.le (by linarith)),
      le_trans (min_le_left _ _) (le_max_right _ _),
      fun _ => min_le_right _ _,
      fun hc => absurd hc (lt_asymm h1)⟩
  · exact ⟨le_trans (min_le_right _ _) (le_max_left _ _),
      le_trans (max_le h2.le (by linarith)) (le_max_left _ _),
      fun hc => absurd hc (lt_asymm h2),
      fun _ => le_max_right _ _⟩
  · exact ⟨min_le_left _ _, le_max_left _ _,
      fun hc => absurd hc h1, fun hc => absurd hc h2⟩

/-- C6 witness: the amended clamp at `attack = 2`, `release = 1`,
`target = 1`, `current = 0`. -/
theorem C6_envelope_clamp_witness :
    min (0:ℝ) 1 ≤ envelopeStep 2 1 1 0 ∧
    envelopeStep 2 1 1 0 ≤ max (0:ℝ) 1 ∧
    ((0:ℝ) < 1 → envelopeStep 2 1 1 0 ≤ 0 + 2) ∧
    ((1:ℝ) < 0 → 0 - 1 ≤ envelopeStep 2 1 1 0) :=
  C6_envelope_clamp 2 1 1 0 (by norm_num) (by norm_num)

/-- C4 counterexample: `setDrive` with commanded frequency `0` and
amplitude `0` keeps the previous stored values (`200` and `0.01` from
the constructor), so the stored Drive State does not equal the
commanded zero values. -/
theorem C4_counterexample :
    (setDrive true 0 0 0.3 0.3 initialState).driveFreq = 200 ∧
    (setDrive true 0 0 0.3 0.3 initialState).driveAmp = 0.01 ∧
    (200 : ℝ) ≠ 0 := by
  refine ⟨?_, ?_, by norm_num⟩ <;> simp [setDrive, initialState]

/-- C4 (amended): for every command and every prior state, `setDrive`
overwrites the enabled flag and the drive position unconditionally,
and overwrites frequency and amplitude exactly when the commanded
value is nonzero — a commanded zero (falsy) frequency or amplitude
leaves the previously stored value unchanged. -/
theorem C4_setDrive_overwrites (enabled : Bool) (freq amp x y : ℝ) (s : ProcState) :
    (setDrive enabled freq amp x y s).driveEnabled = enabled ∧
    (setDrive enabled freq amp x y s).driveX = x ∧
    (setDrive enabled freq amp x y s).driveY = y ∧
    (freq ≠ 0 → (setDrive enabled freq amp x y s).driveFreq = freq) ∧
    (freq = 0 → (setDrive enabled freq amp x y s).driveFreq = s.driveFreq) ∧
    (amp ≠ 0 → (setDrive enabled freq amp x y s).driveAmp = amp) ∧
    (amp = 0 → (setDrive enabled freq amp x y s).driveAmp = s.driveAmp) := by
  refine ⟨rfl, rfl, rfl, fun hf => ?_, fun hf => ?_, fun ha => ?_, fun ha => ?_⟩
  · simp [setDrive, hf]
  · simp [setDrive, hf]
  · simp [setDrive, ha]
  · simp [setDrive, ha]

/-- C4 witness: the amended overwrite at a concrete nonzero command and
at a concrete zero command, discharging both kinds of hypothesis. -/
theorem C4_setDrive_overwrites_witness :
    (setDrive true 300 0.05 0.2 0.7 initialState).driveEnabled = true ∧
    (setDrive true 300 0.05 0.2 0.7 initialState).driveX = 0.2 ∧
    (setDrive true 300 0.05 0.2 0.7 initialState).driveFreq = 300 ∧
    (setDrive true 300 0.05 0.2 0.7 initialState).driveAmp = 0.05 ∧
    (setDrive false 0 0 0.4 0.6 initialState).driveFreq = initialState.driveFreq ∧
    (setDrive false 0 0 0.4 0.6 initialState).driveAmp = initialState.driveAmp :=
  ⟨(C4_setDrive_overwrites true 300 0.05 0.2 0.7 initialState).1,
    (C4_setDrive_overwrites true 300 0.05 0.2 0.7 initialState).2.1,
    (C4_setDrive_overwrites true 300 0.05 0.2 0.7 initialState).2.2.2.1 (by norm_num),
    (C4_setDrive_overwrites true 300 0.05 0.2 0.7 initialState).2.2.2.2.2.1 (by norm_num),
    (C4_setDrive_overwrites false 0 0 0.4 0.6 initialState).2.2.2.2.1 rfl,
    (C4_setDrive_overwrites false 0 0 0.4 0.6 initialState).2.2.2.2.2.2 rfl⟩

/-- C9: `StrikeAt` adds `gain * sin (m pi x) * sin (n pi y) / sqrt (m^2 + n^2)`
to the pending pulse of every mode; at the center of the membrane,
mode `(2,2)` receives `0` (its nodal line) and mode `(1,1)` receives
`1 / sqrt 2`. -/
theorem C9_strike_at :
    (∀ (s : ProcState) (x y gain : ℝ),
      (exciteModes x y gain s).modes = s.modes.map (fun md =>
        { md with pendingPulse := md.pendingPulse + strikePulse md.m md.n x y gain })) ∧
    strikePulse 2 2 (1/2) (1/2) 1 = 0 ∧
    strikePulse 1 1 (1/2) (1/2) 1 = 1 / Real.sqrt 2 := by
  refine ⟨fun s x y gain => rfl, ?_, ?_⟩
  · simp only [strikePulse]
    push_cast
    rw [show (2:ℝ) * Real.pi * (1/2) = Real.pi by ring, Real.sin_pi]
    ring
  · simp only [strikePulse]
    push_cast
    rw [show (1:ℝ) * Real.pi * (1/2) = Real.pi / 2 by ring, Real.sin_pi_div_two,
      show (1:ℝ) * 1 + 1 * 1 = 2 by norm_num]
    ring

/-- C3 counterexample: in a mid-sustain state with the smoothed chord
amplitude of slot 0 at `1` (well above the `0.001` threshold) and a
nonzero sustain term, `ClearChord` makes the per-sample chord
excitation term zero immediately, refuting the claim that the term
remains nonzero while the smoothed amplitude exceeds the threshold. -/
theorem C3_counterexample :
    (0.001 : ℝ) < (clearChord sustainState).currentAmplitudes.getD 0 0 ∧
    chordExcitation (clearChord sustainState) 0 = 0 ∧
    chordExcitation sustainState 0 ≠ 0 := by
  refine ⟨?_, ?_, ?_⟩
  · simp [clearChord, sustainState]
    norm_num
  · simp [chordExcitation, clearChord]
  · norm_num [chordExcitation, sustainState, chordBank, initModes, initialState,
      Real.sin_pi_div_two]

/-- C3 (amended): `ClearChord` zeroes every slot of `targetAmplitude`
and clears `chordMode`, so the chord sustain excitation term is zero
immediately on the next sample (the sustain excitation stops
instantly; the sound decays through the resonators, while the envelope
still releases `currentAmplitude` at the release rate). -/
theorem C3_clearChord_stops_excitation (s : ProcState) :
    (clearChord s).targetAmplitudes
      = List.replicate s.targetAmplitudes.length 0 ∧
    (clearChord s).chordMode = false ∧
    ∀ j, chordExcitation (clearChord s) j = 0 := by
  refine ⟨?_, rfl, fun j => ?_⟩
  · simp [clearChord, List.map_const']
  · simp [chordExcitation, clearChord]

/-- `createModes 2 2` enumerates the four modes in `(m, n)` order. -/
lemma createModes_two_two (f0 sr db : ℝ) :
    createModes 2 2 f0 sr db =
      [buildMode f0 sr db 1 1, buildMode f0 sr db 1 2,
       buildMode f0 sr db 2 1, buildMode f0 sr db 2 2] := by
  simp [createModes, List.range_succ]

/-- The Scenario C bank holds four modes. -/
lemma chordBank_modes_length : chordBank.modes.length = 4 := by
  simp [chordBank, initModes, createModes_two_two]

/-- `setChord [1,0,0,0]` writes the commanded amplitudes into
`targetAmplitudes` on the four-mode bank. -/
lemma setChord_chordBank_targets :
    (setChord [1, 0, 0, 0] false chordBank).targetAmplitudes = [1, 0, 0, 0] := by
  simp only [setChord, chordBank_modes_length]
  norm_num [List.range_succ]

/-- C2 counterexample: after `SetChord([1,0,0,0], sustain := false)` the
target-amplitude array holds the commanded amplitudes `[1,0,0,0]`, not
`[0,0,0,0]` as claimed. -/
theorem C2_counterexample :
    (setChord [1, 0, 0, 0] false chordBank).targetAmplitudes ≠ [0, 0, 0, 0] := by
  rw [setChord_chordBank_targets]
  intro hc
  injection hc with h1 _
  exact absurd h1 (by norm_num)

/-- C2 (amended): `SetChord([1,0,0,0], sustain := false)` on the
four-mode bank gives exactly mode 0 an immediate pending-pulse accent
of `0.15`, leaves the other pulses untouched, stores the commanded
amplitudes `[1,0,0,0]` in `targetAmplitudes`, and clears `chordMode`,
so the envelope target drives no sustain excitation. -/
theorem C2_setChord_accent :
    (setChord [1, 0, 0, 0] false chordBank).targetAmplitudes = [1, 0, 0, 0] ∧
    (setChord [1, 0, 0, 0] false chordBank).modes.map Mode.pendingPulse
      = [0.15, 0, 0, 0] ∧
    (setChord [1, 0, 0, 0] false chordBank).chordMode = false := by
  refine ⟨setChord_chordBank_targets, ?_, rfl⟩
  norm_num [setChord, setChordPulses, chordBank, initModes, createModes_two_two,
    buildMode]

/-- The evolution of one mode from the zero state is additive in the
excitation stream (the per-sample update is linear). -/
lemma modeState_add (c : Coef) (u v : ℕ → ℝ) (t : ℕ) :
    modeState c (fun k => u k + v k) t
      = ((modeState c u t).1 + (modeState c v t).1,
         (modeState c u t).2 + (modeState c v t).2) := by
  induction t with
  | zero => simp [modeState]
  | succ t ih =>
      simp only [modeState, resonatorStep, ih, Prod.mk.injEq]
      constructor <;> ring_nf

/-- C8: superposition of the resonator bank in exact real arithmetic:
running the bank from the zero state on the pointwise sum of two
excitation streams gives, at every sample, the sum of the outputs of
the two runs on the separate streams. -/
theorem C8_superposition (cs : List Coef) (a b : ℕ → ℕ → ℝ) (t : ℕ) :
    bankOutput cs (fun k j => a k j + b k j) t
      = bankOutput cs a t + bankOutput cs b t := by
  unfold bankOutput
  rw [← List.sum_map_add]
  congr 1
  refine List.map_congr_left (fun p _ => ?_)
  rw [modeState_add p.2 (fun k => a k p.1) (fun k => b k p.1) (t + 1)]
  ring_nf

/-- The fundamental `(1, 1)` mode of a 200 Hz membrane sounds at
200 Hz. -/
lemma modeFreq_one_one : modeFreq 200 1 1 = 200 := by
  have h2 : Real.sqrt 2 ≠ 0 := ne_of_gt (Real.sqrt_pos.mpr (by norm_num))
  simp only [modeFreq]
  push_cast
  rw [show (1:ℝ) * 1 + 1 * 1 = 2 by norm_num, mul_div_assoc, div_self h2, mul_one]

/-- The `(1, 1)` decay time equals the base decay constant. -/
lemma modeDecayTime_one_one : modeDecayTime 2 200 1 1 = 2 := by
  rw [modeDecayTime, modeFreq_one_one]
  norm_num

/-- C1 counterexample: the configuration `(m, n, f0, sampleRate,
decayBase) = (1, 1, 200, -48000, 2)` has positive decay base `2` and
finite frequency `200`, yet the Mode Coefficient Builder yields
`R = exp (1 / 96000) > 1`, and `initModes` still accepts the resulting
bank, setting `initialized` — nothing is rejected at Init time. -/
theorem C1_counterexample :
    (0:ℝ) < 2 ∧
    modeFreq 200 1 1 = 200 ∧
    1 < modeR 200 (-48000) 2 1 1 ∧
    (initModes (createModes 1 1 200 (-48000) 2) (-48000) initialState).initialized
      = true := by
  refine ⟨by norm_num, modeFreq_one_one, ?_, rfl⟩
  have h : modeR 200 (-48000) 2 1 1 = Real.exp (1 / 96000) := by
    rw [modeR, modeDecayTime_one_one]
    congr 1
    norm_num
  rw [h, Real.one_lt_exp_iff]
  norm_num

/-- C1 (amended): for positive decay base, positive sample rate and
nonzero fundamental the builder always yields `0 < R < 1`; but `Init`
performs no validation at all — `initModes` sets `initialized` for any
incoming coefficient set, so a configuration with `R ≥ 1` is accepted
silently rather than rejected or clamped. -/
theorem C1_R_bound_no_rejection :
    (∀ (data : List Mode) (sr : ℝ) (s : ProcState),
      (initModes data sr s).initialized = true) ∧
    (∀ (f0 sampleRate decayBase : ℝ) (m n : ℕ),
      0 < decayBase → 0 < sampleRate → f0 ≠ 0 → 1 ≤ m → 1 ≤ n →
      0 < modeR f0 sampleRate decayBase m n ∧
        modeR f0 sampleRate decayBase m n < 1) := by
  refine ⟨fun data sr s => rfl, fun f0 sr db m n hdb hsr hf0 hm hn => ?_⟩
  have hm' : (0:ℝ) < m := by exact_mod_cast Nat.lt_of_lt_of_le Nat.zero_lt_one hm
  have hn' : (0:ℝ) < n := by exact_mod_cast Nat.lt_of_lt_of_le Nat.zero_lt_one hn
  have hmn : (0:ℝ) < (m:ℝ) * m + n * n := by nlinarith
  have hs : 0 < Real.sqrt ((m:ℝ) * m + n * n) := Real.sqrt_pos.mpr hmn
  have hsqrt2 : (0:ℝ) < Real.sqrt 2 := Real.sqrt_pos.mpr (by norm_num)
  have hDT : modeDecayTime db f0 m n
      = db * Real.sqrt 2 / Real.sqrt ((m:ℝ) * m + n * n) := by
    rw [modeDecayTime, modeFreq]
    field_simp
    ring
  have hDTpos : 0 < modeDecayTime db f0 m n := by
    rw [hDT]
    exact div_pos (mul_pos hdb hsqrt2) hs
  have harg : -(1 / sr) / modeDecayTime db f0 m n < 0 := by
    apply div_neg_of_neg_of_pos _ hDTpos
    simpa using one_div_pos.mpr hsr
  exact ⟨Real.exp_pos _, by rw [modeR, Real.exp_lt_one_iff]; exact harg⟩

/-- C1 witness: the amended statement at the well-formed configuration
`(1, 1, 200, 48000, 2)` and at the empty mode list. -/
theorem C1_R_bound_no_rejection_witness :
    (initModes [] 48000 initialState).initialized = true ∧
    (0 < modeR 200 48000 2 1 1 ∧ modeR 200 48000 2 1 1 < 1) :=
  ⟨C1_R_bound_no_rejection.1 [] 48000 initialState,
    C1_R_bound_no_rejection.2 200 48000 2 1 1 (by norm_num) (by norm_num)
      (by norm_num) (by norm_num) (by norm_num)⟩

/-- Base case equation of the impulse response. -/
lemma pulseResponse_zero (Rcos R2 g p : ℝ) : pulseResponse Rcos R2 g p 0 = 0 := rfl

/-- First-sample equation of the impulse response. -/
lemma pulseResponse_one (Rcos R2 g p : ℝ) : pulseResponse Rcos R2 g p 1 = g * p := rfl

/-- Recurrence equation of the impulse response. -/
lemma pulseResponse_add_two (Rcos R2 g p : ℝ) (t : ℕ) :
    pulseResponse Rcos R2 g p (t + 2)
      = 2 * Rcos * pulseResponse Rcos R2 g p (t + 1)
        - R2 * pulseResponse Rcos R2 g p t := rfl

/-- The impulse response of one resonator agrees with the bank
evolution `modeState` driven by a one-sample pulse stream. -/
lemma pulseResponse_eq_modeState (c : Coef) (p : ℝ) (t : ℕ) :
    pulseResponse c.Rcos c.R2 c.g p t
      = (modeState c (fun k => if k = 0 then p else 0) t).1 := by
  induction t using Nat.twoStepInduction with
  | zero => simp [pulseResponse_zero, modeState]
  | one => simp [pulseResponse_one, modeState, resonatorStep]
  | more t ih ih1 =>
      have hsnd : (modeState c (fun k => if k = 0 then p else 0) (t + 1)).2
          = (modeState c (fun k => if k = 0 then p else 0) t).1 := by
        simp [modeState, resonatorStep]
      rw [pulseResponse_add_two, ih, ih1,
        show t + 2 = (t + 1) + 1 from rfl]
      simp [modeState, resonatorStep, hsnd]

/-- Closed form of the impulse response of a damped resonator with
`Rcos = R cos θ` and `R2 = R^2`. -/
lemma pulseResponse_closed_form (R θ g p : ℝ) (hR : R ≠ 0)
    (hθ : Real.sin θ ≠ 0) (t : ℕ) :
    pulseResponse (R * Real.cos θ) (R * R) g p t
      = g * p / (R * Real.sin θ) * (R ^ t * Real.sin (t * θ)) := by
  induction t using Nat.twoStepInduction with
  | zero => simp [pulseResponse_zero]
  | one =>
      rw [pulseResponse_one]
      push_cast
      rw [pow_one, one_mul]
      field_simp
  | more t ih ih1 =>
      rw [pulseResponse_add_two, ih, ih1]
      push_cast
      have key : Real.sin (((t:ℝ) + 2) * θ)
          = 2 * Real.cos θ * Real.sin (((t:ℝ) + 1) * θ) - Real.sin ((t:ℝ) * θ) := by
        rw [show ((t:ℝ) + 2) * θ = ((t:ℝ) + 1) * θ + θ by ring,
          show (t:ℝ) * θ = ((t:ℝ) + 1) * θ - θ by ring,
          Real.sin_add, Real.sin_sub]
        ring
      linear_combination (-(g * p / (R * Real.sin θ)) * R ^ (t + 2)) * key

/-- C5 counterexample: the mode with `R = 1/2`, `θ = π/2` (so
`Rcos = 0`, `R2 = 1/4`), excited by one unit pulse, has filter-memory
magnitudes `1, 0, 1/4` at samples `1, 2, 3`: the magnitude strictly
increases from sample 2 to sample 3, after the transient peak at
sample 1, refuting sample-to-sample non-increase. -/
theorem C5_counterexample :
    (0:ℝ) < 1/2 ∧ (1/2:ℝ) < 1 ∧
    pulseResponse ((1/2) * Real.cos (Real.pi/2)) ((1/2) * (1/2)) 1 1 1 = 1 ∧
    pulseResponse ((1/2) * Real.cos (Real.pi/2)) ((1/2) * (1/2)) 1 1 2 = 0 ∧
    pulseResponse ((1/2) * Real.cos (Real.pi/2)) ((1/2) * (1/2)) 1 1 3 = -(1/4) ∧
    |pulseResponse ((1/2) * Real.cos (Real.pi/2)) ((1/2) * (1/2)) 1 1 2|
      < |pulseResponse ((1/2) * Real.cos (Real.pi/2)) ((1/2) * (1/2)) 1 1 3| := by
  have hc : Real.cos (Real.pi/2) = 0 := Real.cos_pi_div_two
  have h1 : pulseResponse ((1/2) * Real.cos (Real.pi/2)) ((1/2) * (1/2)) 1 1 1
      = 1 := by
    rw [pulseResponse_one]; norm_num
  have h2 : pulseResponse ((1/2) * Real.cos (Real.pi/2)) ((1/2) * (1/2)) 1 1 2
      = 0 := by
    have e := pulseResponse_add_two ((1/2) * Real.cos (Real.pi/2)) ((1/2) * (1/2)) 1 1 0
    rw [show (2:ℕ) = 0 + 2 from rfl, e, pulseResponse_one, pulseResponse_zero, hc]
    norm_num
  have h3 : pulseResponse ((1/2) * Real.cos (Real.pi/2)) ((1/2) * (1/2)) 1 1 3
      = -(1/4) := by
    have e := pulseResponse_add_two ((1/2) * Real.cos (Real.pi/2)) ((1/2) * (1/2)) 1 1 1
    rw [show (3:ℕ) = 1 + 2 from rfl, e, show (1:ℕ) + 1 = 2 from rfl, h2, h1, hc]
    norm_num
  refine ⟨by norm_num, by norm_num, h1, h2, h3, ?_⟩
  rw [h2, h3]
  rw [abs_zero, abs_of_nonpos (by norm_num : -(1/4 : ℝ) ≤ 0)]
  norm_num

/-- C5 (amended): for any mode with `0 < R < 1`, `Rcos = R cos θ`,
`R2 = R^2` and a nondegenerate oscillation (`sin θ ≠ 0`), the filter
memory after one pulse is bounded by a decaying geometric envelope and
converges to `0` as samples go to infinity — though it is not
sample-to-sample non-increasing. -/
theorem C5_decay_to_zero (R θ g p : ℝ) (hR0 : 0 < R) (hR1 : R < 1)
    (hθ : Real.sin θ ≠ 0) :
    (∀ t, |pulseResponse (R * Real.cos θ) (R * R) g p t|
        ≤ |g * p / (R * Real.sin θ)| * R ^ t) ∧
    Filter.Tendsto (fun t => pulseResponse (R * Real.cos θ) (R * R) g p t)
      Filter.atTop (nhds 0) := by
  have hbound : ∀ t, |pulseResponse (R * Real.cos θ) (R * R) g p t|
      ≤ |g * p / (R * Real.sin θ)| * R ^ t := by
    intro t
    rw [pulseResponse_closed_form R θ g p hR0.ne' hθ t, abs_mul, abs_mul]
    rw [abs_of_nonneg (pow_nonneg hR0.le t)]
    have h2 : |Real.sin ((t:ℝ) * θ)| ≤ 1 :=
      abs_le.mpr ⟨Real.neg_one_le_sin _, Real.sin_le_one _⟩
    have h3 : R ^ t * |Real.sin ((t:ℝ) * θ)| ≤ R ^ t := by
      nlinarith [pow_nonneg hR0.le t, abs_nonneg (Real.sin ((t:ℝ) * θ))]
    nlinarith [abs_nonneg (g * p / (R * Real.sin θ))]
  refine ⟨hbound, ?_⟩
  have hlim : Filter.Tendsto (fun t : ℕ => |g * p / (R * Real.sin θ)| * R ^ t)
      Filter.atTop (nhds 0) := by
    have h := tendsto_pow_atTop_nhds_zero_of_lt_one hR0.le hR1
    simpa using h.const_mul |g * p / (R * Real.sin θ)|
  exact squeeze_zero_norm (fun t => by rw [Real.norm_eq_abs]; exact hbound t) hlim

/-- C5 witness: the amended decay statement at the concrete mode
`R = 1/2`, `θ = π/2`, unit gain and unit pulse. -/
theorem C5_decay_to_zero_witness :
    (∀ t, |pulseResponse ((1/2) * Real.cos (Real.pi/2)) ((1/2) * (1/2)) 1 1 t|
        ≤ |1 * 1 / ((1/2) * Real.sin (Real.pi/2))| * (1/2) ^ t) ∧
    Filter.Tendsto
      (fun t => pulseResponse ((1/2) * Real.cos (Real.pi/2)) ((1/2) * (1/2)) 1 1 t)
      Filter.atTop (nhds 0) :=
  C5_decay_to_zero (1/2) (Real.pi/2) 1 1 (by norm_num) (by norm_num)
    (by rw [Real.sin_pi_div_two]; norm_num)

end

end Soundwave
